import Mathlib

/-!
Verification of the negotiation protocol engine of this repository
(buyer/seller price negotiation over a socket).

The Python sources are shallowly embedded:

* `negotiation_agent.py` — buyer data model and the deterministic buyer
  fallback policy `respond_to_seller_offer`.
* `seller_server.py` — seller state, the deterministic seller fallback
  policy `_rule_based_response` (here `rule_based_response`), the main
  dispatcher `handle_buyer_message`, and the helper
  `extract_first_json_block`.
* `buyer_client.py` — the buyer session loop `negotiate` / `handle_offer`
  (its deterministic, non-LLM path) with its `MAX_ROUNDS` cutoff.

Python `int` is modelled by `Int` (machine ints are unbounded in Python).
Python expressions of the form `int(x * 1.07)` (a float product truncated
toward zero) are modelled by exact scaled-integer truncated division,
e.g. `(x * 107).tdiv 100`; `Int.tdiv` truncates toward zero exactly as
Python's `int(...)` does.  On every concrete value appearing in the claims
the float computation and the scaled-integer computation agree.

Text presentation details of outgoing messages (the human-readable
`message` strings built with f-strings) play no role in any claim and are
not carried in the embedded replies.
-/

/-! ### Buyer side: data model and fallback policy (`negotiation_agent.py`) -/

/-- `DealStatus` enum from `negotiation_agent.py`. -/
inductive DealStatus where
  | ongoing
  | accepted
  | rejected
  | counter
  | timeout
deriving DecidableEq, Repr

/-- The fields of `NegotiationContext` (from `negotiation_agent.py`) that the
deterministic logic reads or writes: the buyer's budget, the product's base
market price, the round counter and the two offer histories.  The transcript
(`messages`) is never used for control flow and is omitted. -/
structure BuyerContext where
  budget : Int
  basePrice : Int
  round : Nat
  sellerOffers : List Int
  yourOffers : List Int
deriving DecidableEq, Repr

/-- `YourBuyerAgent.respond_to_seller_offer` from `negotiation_agent.py`
(rule-based fallback).  Returns the decision and the price it carries
(`0` for a rejection); the persuasion text is immaterial and dropped.

Source logic:
* accept if `seller_price <= your_budget`;
* reject if `seller_price > your_budget * 1.5` (modelled exactly as
  `2 * seller_price > 3 * budget`; `1.5` is dyadic so the float comparison
  is exact);
* otherwise counter with
  `max(int(last_offer * 1.07), int(your_budget * 0.8))` where `last_offer`
  is `your_offers[-1]` or `int(base_market_price * 0.65)` if none. -/
def respond_to_seller_offer (ctx : BuyerContext) (sellerPrice : Int) :
    DealStatus × Int :=
  if sellerPrice ≤ ctx.budget then
    (DealStatus.accepted, sellerPrice)
  else if sellerPrice * 2 > ctx.budget * 3 then
    (DealStatus.rejected, 0)
  else
    let lastOffer := ctx.yourOffers.getLast?.getD ((ctx.basePrice * 65).tdiv 100)
    let counterPrice := max ((lastOffer * 107).tdiv 100) ((ctx.budget * 8).tdiv 10)
    (DealStatus.counter, counterPrice)

/-- One buyer-side processing of a received seller offer/counter, from
`BuyerClient.handle_offer` in `buyer_client.py` (the deterministic non-LLM
path): increment `current_round`, append the seller price to
`seller_offers`, run `respond_to_seller_offer`, and if the decision is a
counter append its price to `your_offers`. -/
def buyer_handle_offer (ctx : BuyerContext) (sellerPrice : Int) :
    BuyerContext × DealStatus × Int :=
  let ctx1 := { ctx with
    round := ctx.round + 1
    sellerOffers := ctx.sellerOffers ++ [sellerPrice] }
  let d := respond_to_seller_offer ctx1 sellerPrice
  let ctx2 :=
    if d.1 = DealStatus.counter then
      { ctx1 with yourOffers := ctx1.yourOffers ++ [d.2] }
    else ctx1
  (ctx2, d)

/-- The context `BuyerClient.handle_offer` builds on the first received
offer: the product is Alphonso Mangoes with `base_market_price = 180000`
and the buyer's budget is `BuyerClient.budget` (`200000` by default);
`current_round = 0`, all histories empty. -/
def initBuyerContext (budget : Int) : BuyerContext :=
  { budget := budget, basePrice := 180000, round := 0
    sellerOffers := [], yourOffers := [] }

/-- Contexts reached by the deterministic buyer after processing a given
sequence of seller offers, starting from the initial context. -/
def reachBuyerContext (budget : Int) (offers : List Int) : BuyerContext :=
  offers.foldl (fun c p => (buyer_handle_offer c p).1) (initBuyerContext budget)

/-- `MAX_ROUNDS` from `buyer_client.py`. -/
def MAX_ROUNDS : Nat := 10

/-- Outcome flags of one turn of `BuyerClient.negotiate` on an incoming
seller `offer`/`counter` message (`buyer_client.py`): whether the offer was
handed to the decision logic (`handle_offer`), whether a `Reject` was
synthesized and sent by `stop`, and whether the session continues. -/
structure NegotiateStepResult where
  policyProcessed : Bool
  rejectSent : Bool
  continueSession : Bool
deriving DecidableEq, Repr

/-- The round-limit logic of `BuyerClient.negotiate` for an incoming
`offer`/`counter` message: `handle_offer` runs first, then
`if self.context.current_round >= MAX_ROUNDS: self.stop(...)` — `stop`
sends a synthesized reject and the turn reports the session finished. -/
def buyer_negotiate_offer (ctx : BuyerContext) (sellerPrice : Int) :
    BuyerContext × NegotiateStepResult :=
  let r := buyer_handle_offer ctx sellerPrice
  if MAX_ROUNDS ≤ r.1.round then
    (r.1, { policyProcessed := true, rejectSent := true, continueSession := false })
  else
    (r.1, { policyProcessed := true, rejectSent := false, continueSession := true })

/-! ### Seller side: state and fallback policy (`seller_server.py`) -/

/-- The mutable attributes of `SellerServer` that the negotiation logic
touches: `min_price`, `current_price` and `round` (the `product` is
immutable and only feeds the initial asking price). -/
structure SellerState where
  minPrice : Int
  currentPrice : Int
  round : Nat
deriving DecidableEq, Repr

/-- `SellerServer.__init__`: `current_price = int(base_market_price * 1.4)`,
`round = 0`. -/
def initSellerState (baseMarketPrice minPrice : Int) : SellerState :=
  { minPrice := minPrice, currentPrice := (baseMarketPrice * 14).tdiv 10, round := 0 }

/-- A seller reply record as built by `seller_server.py`: its `type`
discriminant, `price` and `round` fields (the persuasion `message` text is
immaterial to every claim and dropped). -/
structure Reply where
  rtype : String
  price : Int
  round : Nat
deriving DecidableEq, Repr

/-- `SellerServer._rule_based_response` from `seller_server.py`: the
deterministic fallback.  Increments `self.round` first, then:
* accept at the buyer's price if `buyer_offer >= int(self.min_price * 1.1)`;
* if `buyer_offer <= 0`, counter at the unchanged `current_price`;
* otherwise counter at `max(min_price, int(buyer_offer * mult))` with
  `mult = 1.05` if `round >= 8`, `1.12` if `round >= 6`, else `1.18`.

No attribute other than `round` is written: in particular `current_price`
is never updated here. -/
def rule_based_response (s : SellerState) (buyerOffer : Int) :
    SellerState × Reply :=
  let s1 := { s with round := s.round + 1 }
  if buyerOffer ≥ (s.minPrice * 11).tdiv 10 then
    (s1, { rtype := "accept", price := buyerOffer, round := s1.round })
  else if buyerOffer ≤ 0 then
    (s1, { rtype := "counter", price := s.currentPrice, round := s1.round })
  else
    let counterPrice :=
      if s1.round ≥ 8 then max s.minPrice ((buyerOffer * 105).tdiv 100)
      else if s1.round ≥ 6 then max s.minPrice ((buyerOffer * 112).tdiv 100)
      else max s.minPrice ((buyerOffer * 118).tdiv 100)
    (s1, { rtype := "counter", price := counterPrice, round := s1.round })

/-! ### JSON records: `json.loads` / `json.dumps` and the extraction helper
(`seller_server.py`, `buyer_client.py`)

Every message either program exchanges is a flat JSON object whose values
are strings or integers.  `json.loads` and `json.dumps` are modelled on
exactly this fragment: a recursive-descent parser over `List Char` and a
serializer producing the same text `json.dumps` emits for such a dict
(`", "` item separator, `": "` key separator, insertion-ordered keys,
`ensure_ascii=False` so non-ASCII characters pass through literally). -/

/-- JSON leaf values occurring in this protocol's records. -/
inductive JVal where
  | jstr (s : List Char)
  | jnum (n : Int)
deriving DecidableEq, Repr

/-- JSON whitespace (the characters `json` skips between tokens). -/
def isJsonWs (c : Char) : Bool :=
  c == ' ' || c == '\t' || c == '\n' || c == '\r'

/-- Drop leading JSON whitespace. -/
def skipJsonWs : List Char → List Char
  | [] => []
  | c :: t => if isJsonWs c then skipJsonWs t else c :: t

/-- Value of one hexadecimal digit. -/
def hexVal (c : Char) : Option Nat :=
  if '0' ≤ c ∧ c ≤ '9' then some (c.toNat - 48)
  else if 'a' ≤ c ∧ c ≤ 'f' then some (c.toNat - 87)
  else if 'A' ≤ c ∧ c ≤ 'F' then some (c.toNat - 55)
  else none

/-- Parse the body of a JSON string literal (after the opening quote),
decoding the escape sequences `json.loads` accepts; literal control
characters are rejected as in strict-mode `json.loads`.  Returns the
decoded characters and the input after the closing quote. -/
def parseStrAux : List Char → Option (List Char × List Char)
  | [] => none
  | c :: t =>
    if c = '"' then some ([], t)
    else if c = '\\' then
      match t with
      | [] => none
      | e :: t2 =>
        if e = '"' then (parseStrAux t2).map (fun p => ('"' :: p.1, p.2))
        else if e = '\\' then (parseStrAux t2).map (fun p => ('\\' :: p.1, p.2))
        else if e = '/' then (parseStrAux t2).map (fun p => ('/' :: p.1, p.2))
        else if e = 'n' then (parseStrAux t2).map (fun p => ('\n' :: p.1, p.2))
        else if e = 't' then (parseStrAux t2).map (fun p => ('\t' :: p.1, p.2))
        else if e = 'r' then (parseStrAux t2).map (fun p => ('\r' :: p.1, p.2))
        else if e = 'b' then (parseStrAux t2).map (fun p => (Char.ofNat 8 :: p.1, p.2))
        else if e = 'f' then (parseStrAux t2).map (fun p => (Char.ofNat 12 :: p.1, p.2))
        else if e = 'u' then
          match t2 with
          | h1 :: h2 :: h3 :: h4 :: t3 =>
            match hexVal h1, hexVal h2, hexVal h3, hexVal h4 with
            | some a, some b, some c3, some d =>
              (parseStrAux t3).map
                (fun p => (Char.ofNat (a * 4096 + b * 256 + c3 * 16 + d) :: p.1, p.2))
            | _, _, _, _ => none
          | _ => none
        else none
    else if c.toNat < 32 then none
    else (parseStrAux t).map (fun p => (c :: p.1, p.2))

/-- Accumulate a run of decimal digits. -/
def parseNatAux : Nat → List Char → Nat × List Char
  | acc, [] => (acc, [])
  | acc, c :: t =>
    if c.isDigit then parseNatAux (acc * 10 + (c.toNat - 48)) t else (acc, c :: t)

/-- Whether the input starts with a decimal digit (the condition under
which `parseNatAux` keeps consuming). -/
def headDigit : List Char → Bool
  | [] => false
  | c :: _ => c.isDigit

/-- Parse a (possibly negated) JSON integer. -/
def parseNum : List Char → Option (Int × List Char)
  | [] => none
  | c :: t =>
    if c = '-' then
      match t with
      | [] => none
      | c2 :: t2 =>
        if c2.isDigit then
          let r := parseNatAux 0 (c2 :: t2)
          some (-(r.1 : Int), r.2)
        else none
    else if c.isDigit then
      let r := parseNatAux 0 (c :: t)
      some ((r.1 : Int), r.2)
    else none

/-- Parse one leaf value (string or integer). -/
def parseVal (s : List Char) : Option (JVal × List Char) :=
  match skipJsonWs s with
  | [] => none
  | c :: t =>
    if c = '"' then (parseStrAux t).map (fun p => (JVal.jstr p.1, p.2))
    else if c = '-' ∨ c.isDigit then
      (parseNum (c :: t)).map (fun p => (JVal.jnum p.1, p.2))
    else none

/-- Parse the members of an object, positioned at the first character of a
key (whitespace allowed); the fuel bounds the number of members and any
value `≥` the member count gives the same result. -/
def parseMembersF : Nat → List Char → Option (List (List Char × JVal) × List Char)
  | 0, _ => none
  | fuel + 1, s =>
    match skipJsonWs s with
    | [] => none
    | c :: t =>
      if c = '"' then
        match parseStrAux t with
        | none => none
        | some (key, r1) =>
          match skipJsonWs r1 with
          | [] => none
          | c2 :: r2 =>
            if c2 = ':' then
              match parseVal r2 with
              | none => none
              | some (v, r3) =>
                match skipJsonWs r3 with
                | [] => none
                | c3 :: r4 =>
                  if c3 = ',' then
                    match parseMembersF fuel r4 with
                    | none => none
                    | some (rest, r5) => some ((key, v) :: rest, r5)
                  else if c3 = '}' then some ([(key, v)], r4)
                  else none
            else none
      else none

/-- Parse one flat JSON object, returning its members and the rest of the
input. -/
def parseObj (s : List Char) : Option (List (List Char × JVal) × List Char) :=
  match skipJsonWs s with
  | [] => none
  | c :: t =>
    if c = '{' then
      match skipJsonWs t with
      | [] => none
      | c2 :: t2 =>
        if c2 = '}' then some ([], t2)
        else parseMembersF (s.length + 4) (c2 :: t2)
    else none

/-- `json.loads` on this protocol's records: exactly one object, possibly
surrounded by whitespace. -/
def jsonLoads (s : List Char) : Option (List (List Char × JVal)) :=
  match parseObj s with
  | some (o, rest) =>
    match skipJsonWs rest with
    | [] => some o
    | _ => none
  | none => none

/-- Python-dict field lookup: a later duplicate key overrides an earlier
one, as when `json.loads` builds the dict. -/
def jGet : List (List Char × JVal) → List Char → Option JVal
  | [], _ => none
  | (k, v) :: t, key =>
    match jGet t key with
    | some v2 => some v2
    | none => if k = key then some v else none

/-- `text.find` of the first opening brace: the suffix of the input that
starts at the first brace, or `none`. -/
def dropToBrace : List Char → Option (List Char)
  | [] => none
  | c :: t => if c = '{' then some (c :: t) else dropToBrace t

/-- The depth-tracking scan of `extract_first_json_block`: `acc` holds the
consumed characters in reverse; on a closing brace at depth 1 the slice so
far is returned.  (It is only ever entered on input whose head is an
opening brace, so the depth stays positive until the returning step.) -/
def extractBalanced : Nat → List Char → List Char → Option (List Char)
  | _, _, [] => none
  | depth, acc, c :: t =>
    if c = '{' then extractBalanced (depth + 1) (c :: acc) t
    else if c = '}' then
      if depth = 1 then some ((c :: acc).reverse)
      else extractBalanced (depth - 1) (c :: acc) t
    else extractBalanced depth (c :: acc) t

/-- `extract_first_json_block` from `seller_server.py`: find the first
opening brace, scan forward tracking nested-brace depth, and return the
slice at which the depth returns to zero; `none` when no balanced block
exists. -/
def extract_first_json_block (s : List Char) : Option (List Char) :=
  (dropToBrace s).bind (extractBalanced 0 [])

/-! ### Field normalization of `handle_buyer_message` and the Gemini
output sanitizer (`seller_server.py`) -/

/-- Lower-casing as Python `str.lower()` on the record discriminants. -/
def toLowerStr (s : List Char) : List Char := s.map Char.toLower

/-- `(buyer_data.get("action") or buyer_data.get("type") or "").lower()`:
a missing or empty (falsy) `action` falls back to `type`, then to `""`. -/
def getActionField (o : List (List Char × JVal)) : List Char :=
  let a :=
    match jGet o ("action".data) with
    | some (JVal.jstr s) => s
    | _ => []
  let b :=
    if a = [] then
      match jGet o ("type".data) with
      | some (JVal.jstr s) => s
      | _ => []
    else a
  toLowerStr b

/-- `int(buyer_data.get("price", 0) or 0)`: a missing price is 0 (the
protocol's records carry numeric prices). -/
def getPriceField (o : List (List Char × JVal)) : Int :=
  match jGet o ("price".data) with
  | some (JVal.jnum n) => n
  | _ => 0

/-- `str(buyer_data.get("message", "") or "")`: a missing message is the
empty string. -/
def getMessageField (o : List (List Char × JVal)) : List Char :=
  match jGet o ("message".data) with
  | some (JVal.jstr s) => s
  | _ => []

/-- `SellerServer.handle_buyer_message` in its deterministic configuration
(`USE_GEMINI` false): an `accept` action is confirmed unconditionally at
the buyer's stated price; a `reject` action is acknowledged; anything else
goes to `_rule_based_response` with the parsed price. -/
def handle_buyer_message (s : SellerState) (o : List (List Char × JVal)) :
    SellerState × Reply :=
  let action := getActionField o
  let price := getPriceField o
  if action = "accept".data then
    (s, { rtype := "deal_confirmed", price := price, round := s.round })
  else if action = "reject".data then
    (s, { rtype := "reject", price := 0, round := s.round })
  else
    rule_based_response s price

/-- Python `str.strip()` (on the whitespace this protocol meets). -/
def pyStrip (s : List Char) : List Char :=
  (skipJsonWs ((skipJsonWs s).reverse)).reverse

/-- The discriminant sanitizer of `SellerServer._gemini_generate`: a
recognized type is kept; otherwise prefix normalization applies
(`acc*` to accept, `rej*` to reject, anything else to counter). -/
def normalizeGeminiType (t : List Char) : List Char :=
  if t = "counter".data ∨ t = "accept".data ∨ t = "reject".data then t
  else if ("acc".data).isPrefixOf t then "accept".data
  else if ("rej".data).isPrefixOf t then "reject".data
  else "counter".data

/-- `parsed.get("type", "").lower()` in `_gemini_generate`. -/
def getGeminiType (o : List (List Char × JVal)) : List Char :=
  toLowerStr
    (match jGet o ("type".data) with
     | some (JVal.jstr s) => s
     | _ => [])

/-- `int(parsed.get("price", 0)) if parsed.get("price") is not None else 0`
in `_gemini_generate`: a missing price is 0. -/
def getGeminiPrice (o : List (List Char × JVal)) : Int :=
  match jGet o ("price".data) with
  | some (JVal.jnum n) => n
  | _ => 0

/-- `str(parsed.get("message", "")).strip()` in `_gemini_generate`: a
missing message is the empty string. -/
def getGeminiMessage (o : List (List Char × JVal)) : List Char :=
  pyStrip
    (match jGet o ("message".data) with
     | some (JVal.jstr s) => s
     | _ => [])

/-! ### Actions and the wire codec -/

/-- The `Action` variants of the protocol.  `price` is a non-negative
integer; a `Reject` carries no price (it is encoded as 0). -/
inductive WireAction where
  | offer (price : Nat) (message : List Char)
  | counter (price : Nat) (message : List Char)
  | accept (price : Nat) (message : List Char)
  | reject (message : List Char)
deriving DecidableEq, Repr

/-- One character of `json.dumps` string escaping (`ensure_ascii=False`):
quote, backslash and the control characters are escaped (short escapes
where Python has them, `\u00xx` otherwise); everything else is literal. -/
def escapeChar (c : Char) : List Char :=
  if c = '"' then ['\\', '"']
  else if c = '\\' then ['\\', '\\']
  else if c = '\n' then ['\\', 'n']
  else if c = '\t' then ['\\', 't']
  else if c = '\r' then ['\\', 'r']
  else if c.toNat = 8 then ['\\', 'b']
  else if c.toNat = 12 then ['\\', 'f']
  else if c.toNat < 32 then
    ['\\', 'u', '0', '0', hexChar (c.toNat / 16), hexChar (c.toNat % 16)]
  else [c]
where
  /-- One lowercase hexadecimal digit, as `%04x` prints it. -/
  hexChar (n : Nat) : Char :=
    if n < 10 then Char.ofNat (48 + n) else Char.ofNat (87 + n)

/-- `json.dumps` escaping of a whole string body. -/
def escapeStr : List Char → List Char
  | [] => []
  | c :: t => escapeChar c ++ escapeStr t

/-- One decimal digit character. -/
def decDigitChar (d : Nat) : Char := Char.ofNat (48 + d)

/-- Decimal digits of a natural number, as `json.dumps` prints it. -/
def natDigits (n : Nat) : List Char :=
  if h : n < 10 then [decDigitChar n]
  else natDigits (n / 10) ++ [decDigitChar (n % 10)]
termination_by n
decreasing_by exact Nat.div_lt_self (by omega) (by omega)

/-- The exact byte text `json.dumps({"type": t, "price": p, "message": m,
"round": r}, ensure_ascii=False)` produces: `", "` between items, `": "`
after keys, insertion-ordered keys as `seller_server.py` builds its reply
dicts. -/
def encodeRecord (typ : List Char) (price : Nat) (msg : List Char)
    (round : Nat) : List Char :=
  ['{', '"', 't', 'y', 'p', 'e', '"', ':', ' ', '"'] ++ escapeStr typ ++
  ['"', ',', ' ', '"', 'p', 'r', 'i', 'c', 'e', '"', ':', ' '] ++ natDigits price ++
  [',', ' ', '"', 'm', 'e', 's', 's', 'a', 'g', 'e', '"', ':', ' ', '"'] ++ escapeStr msg ++
  ['"', ',', ' ', '"', 'r', 'o', 'u', 'n', 'd', '"', ':', ' '] ++ natDigits round ++ ['}']

/-- Encoding of an `Action` as the seller sends it
(`conn.sendall(json.dumps(reply, ensure_ascii=False).encode("utf-8"))`). -/
def encodeAction (a : WireAction) (round : Nat) : List Char :=
  match a with
  | WireAction.offer p m => encodeRecord ("offer".data) p m round
  | WireAction.counter p m => encodeRecord ("counter".data) p m round
  | WireAction.accept p m => encodeRecord ("accept".data) p m round
  | WireAction.reject m => encodeRecord ("reject".data) 0 m round

/-- The buyer's interpretation of a parsed seller record
(`BuyerClient.negotiate`): `offer`/`counter` are negotiated offers,
`accept` and `deal_confirmed` close the deal at the record's price,
`reject` ends the negotiation; other discriminants are ignored. -/
def classifySellerRecord (o : List (List Char × JVal)) : Option WireAction :=
  match jGet o ("type".data) with
  | some (JVal.jstr t) =>
    if t = "offer".data then
      match jGet o ("price".data) with
      | some (JVal.jnum p) => some (WireAction.offer p.toNat (getMessageField o))
      | _ => none
    else if t = "counter".data then
      match jGet o ("price".data) with
      | some (JVal.jnum p) => some (WireAction.counter p.toNat (getMessageField o))
      | _ => none
    else if t = "accept".data ∨ t = "deal_confirmed".data then
      match jGet o ("price".data) with
      | some (JVal.jnum p) => some (WireAction.accept p.toNat (getMessageField o))
      | _ => none
    else if t = "reject".data then some (WireAction.reject (getMessageField o))
    else none
  | _ => none

/-- The buyer-side decode: `json.loads(data.decode("utf-8"))` followed by
the `type` dispatch of `BuyerClient.negotiate`. -/
def buyer_decode (s : List Char) : Option WireAction :=
  (jsonLoads s).bind classifySellerRecord

/-- The seller's receive path (`SellerServer.run`): try `json.loads` on
the whole text; on failure, extract the first balanced JSON block and
parse that; `none` when both fail. -/
def seller_receive (s : List Char) : Option (List (List Char × JVal)) :=
  match jsonLoads s with
  | some o => some o
  | none => (extract_first_json_block s).bind jsonLoads

/-- The seller's interpretation of a decoded buyer record, following the
normalization of `handle_buyer_message`: an `accept` action closes the
deal at the stated price, a `reject` walks away, and anything else —
including a missing or unrecognized discriminant — is treated as a
counter at the stated price. -/
def classify_buyer_record (o : List (List Char × JVal)) : WireAction :=
  let action := getActionField o
  if action = "accept".data then
    WireAction.accept (getPriceField o).toNat (getMessageField o)
  else if action = "reject".data then WireAction.reject (getMessageField o)
  else WireAction.counter (getPriceField o).toNat (getMessageField o)

/-- Full seller-side decoding of raw bytes into the `Action` they are
acted on as. -/
def seller_decode_action (s : List Char) : Option WireAction :=
  (seller_receive s).map classify_buyer_record

/-- Branch equation: the accept branch of `_rule_based_response`. -/
theorem rule_based_response_accept (s : SellerState) (o : Int)
    (h : (s.minPrice * 11).tdiv 10 ≤ o) :
    rule_based_response s o =
      ({ s with round := s.round + 1 },
       { rtype := "accept", price := o, round := s.round + 1 }) := by
  unfold rule_based_response
  rw [if_pos h]

/-- Branch equation: the non-positive-offer branch of `_rule_based_response`. -/
theorem rule_based_response_zero (s : SellerState) (o : Int)
    (h1 : ¬ ((s.minPrice * 11).tdiv 10 ≤ o)) (h2 : o ≤ 0) :
    rule_based_response s o =
      ({ s with round := s.round + 1 },
       { rtype := "counter", price := s.currentPrice, round := s.round + 1 }) := by
  unfold rule_based_response
  rw [if_neg h1, if_pos h2]

/-- Branch equation: the concession branch of `_rule_based_response`. -/
theorem rule_based_response_pos (s : SellerState) (o : Int)
    (h1 : ¬ ((s.minPrice * 11).tdiv 10 ≤ o)) (h2 : ¬ (o ≤ 0)) :
    rule_based_response s o =
      ({ s with round := s.round + 1 },
       { rtype := "counter",
         price :=
           if 8 ≤ s.round + 1 then max s.minPrice ((o * 105).tdiv 100)
           else if 6 ≤ s.round + 1 then max s.minPrice ((o * 112).tdiv 100)
           else max s.minPrice ((o * 118).tdiv 100),
         round := s.round + 1 }) := by
  unfold rule_based_response
  rw [if_neg h1, if_neg h2]

/-! ### Claim C1 — buyer budget as a hard bound on the fallback policy -/

/-- C1 (counterexample).  The claim "every Action returned by
`respond_to_seller_offer` carries a price ≤ budget" fails on a reachable
context: with the default budget `200000` and base price `180000`, after the
deterministic buyer has countered four seller offers of `250000` (own offers
`160000, 171200, 183184, 196006`), the fifth response to `250000` is a
`Counter` at `209726 > 200000`. -/
theorem buyer_counter_exceeds_budget_cex :
    (buyer_handle_offer
        (reachBuyerContext 200000 [250000, 250000, 250000, 250000]) 250000).2
      = (DealStatus.counter, 209726) ∧ (200000 : Int) < 209726 := by
  constructor
  · decide
  · decide

/-- C1 (amended).  What the fallback policy does guarantee: an `Accept`
is issued exactly when the seller price is within budget and then carries
that (within-budget) price; a `Reject` carries price `0`; a `Counter`
carries `max(int(lastOwnOffer*1.07), int(budget*0.8))`, which is at least
`int(budget * 0.8)` but is not capped by the budget (see the
counterexample). -/
theorem buyer_policy_price_bounds (ctx : BuyerContext) (sellerPrice : Int) :
    ((respond_to_seller_offer ctx sellerPrice).1 = DealStatus.accepted ↔
       sellerPrice ≤ ctx.budget) ∧
    (sellerPrice ≤ ctx.budget →
       (respond_to_seller_offer ctx sellerPrice).2 = sellerPrice) ∧
    ((respond_to_seller_offer ctx sellerPrice).1 = DealStatus.rejected →
       (respond_to_seller_offer ctx sellerPrice).2 = 0) ∧
    ((respond_to_seller_offer ctx sellerPrice).1 = DealStatus.counter →
       (ctx.budget * 8).tdiv 10 ≤ (respond_to_seller_offer ctx sellerPrice).2 ∧
       (respond_to_seller_offer ctx sellerPrice).2 =
         max (((ctx.yourOffers.getLast?.getD ((ctx.basePrice * 65).tdiv 100)) * 107).tdiv 100)
           ((ctx.budget * 8).tdiv 10)) := by
  unfold respond_to_seller_offer
  by_cases h1 : sellerPrice ≤ ctx.budget
  · simp [h1]
  · by_cases h2 : sellerPrice * 2 > ctx.budget * 3
    · simp [h1, h2]
    · simp [h1, h2, le_max_right]

/-- C1 witness: the amended theorem evaluated on the initial default
context and a seller price of `250000`. -/
theorem buyer_policy_price_bounds_witness :
    ((respond_to_seller_offer (initBuyerContext 200000) 250000).1 = DealStatus.accepted ↔
       (250000 : Int) ≤ (initBuyerContext 200000).budget) ∧
    ((250000 : Int) ≤ (initBuyerContext 200000).budget →
       (respond_to_seller_offer (initBuyerContext 200000) 250000).2 = 250000) ∧
    ((respond_to_seller_offer (initBuyerContext 200000) 250000).1 = DealStatus.rejected →
       (respond_to_seller_offer (initBuyerContext 200000) 250000).2 = 0) ∧
    ((respond_to_seller_offer (initBuyerContext 200000) 250000).1 = DealStatus.counter →
       ((initBuyerContext 200000).budget * 8).tdiv 10 ≤
         (respond_to_seller_offer (initBuyerContext 200000) 250000).2 ∧
       (respond_to_seller_offer (initBuyerContext 200000) 250000).2 =
         max ((((initBuyerContext 200000).yourOffers.getLast?.getD
             (((initBuyerContext 200000).basePrice * 65).tdiv 100)) * 107).tdiv 100)
           (((initBuyerContext 200000).budget * 8).tdiv 10)) :=
  buyer_policy_price_bounds (initBuyerContext 200000) 250000

/-! ### Claim C2 — seller fallback follows the ordered rules -/

/-- C2.  The seller fallback follows the ordered rules: writing `r` for the
incremented round the reply belongs to and `thr = int(min_price * 1.1)`,
it accepts at the buyer's price exactly when `buyer_offer ≥ thr`; a
non-positive offer is countered at the unchanged current asking price;
otherwise it counters at `max(min_price, int(buyer_offer * m))` with
`m = 1.05` for `r ≥ 8`, `1.12` for `6 ≤ r < 8`, `1.18` otherwise; and every
counter it returns is `≥ min_price`.  The hypotheses hold for every state
the program constructs (`min_price = 144000 > 0` and
`current_price = 252000 ≥ min_price` initially, and `current_price` is
never written on this path).  With floor `144000`: an offer of `150000`
yields a `Counter` and `170000` yields `Accept(170000)`. -/
theorem seller_rule_based_policy_spec (s : SellerState) (buyerOffer : Int)
    (hpos : 0 < s.minPrice) (hcur : s.minPrice ≤ s.currentPrice) :
    ((rule_based_response s buyerOffer).2.rtype = "accept" ↔
       (s.minPrice * 11).tdiv 10 ≤ buyerOffer) ∧
    ((s.minPrice * 11).tdiv 10 ≤ buyerOffer →
       (rule_based_response s buyerOffer).2.price = buyerOffer) ∧
    (buyerOffer ≤ 0 →
       (rule_based_response s buyerOffer).2.rtype = "counter" ∧
       (rule_based_response s buyerOffer).2.price = s.currentPrice ∧
       (rule_based_response s buyerOffer).1.currentPrice = s.currentPrice) ∧
    (0 < buyerOffer → buyerOffer < (s.minPrice * 11).tdiv 10 →
       (rule_based_response s buyerOffer).2.rtype = "counter" ∧
       (rule_based_response s buyerOffer).2.price =
         max s.minPrice ((buyerOffer *
           (if 8 ≤ s.round + 1 then 105
            else if 6 ≤ s.round + 1 then 112 else 118)).tdiv 100)) ∧
    ((rule_based_response s buyerOffer).2.rtype = "counter" →
       s.minPrice ≤ (rule_based_response s buyerOffer).2.price) ∧
    (rule_based_response s buyerOffer).2.round = s.round + 1 ∧
    (rule_based_response ⟨144000, 252000, 0⟩ 150000).2.rtype = "counter" ∧
    (rule_based_response ⟨144000, 252000, 0⟩ 170000).2 =
      { rtype := "accept", price := 170000, round := 1 } := by
  have hthr : 0 < (s.minPrice * 11).tdiv 10 := by
    rw [Int.tdiv_eq_ediv (by nlinarith) (by norm_num)]
    omega
  by_cases hA : (s.minPrice * 11).tdiv 10 ≤ buyerOffer
  · rw [rule_based_response_accept s buyerOffer hA]
    refine ⟨by simp [hA], fun _ => rfl, fun h2 => absurd h2 (by omega),
      fun _ hlt => absurd hlt (by omega),
      fun hc => absurd (show ("accept" : String) = "counter" from hc) (by decide),
      rfl, by decide, by decide⟩
  · by_cases hZ : buyerOffer ≤ 0
    · rw [rule_based_response_zero s buyerOffer hA hZ]
      exact ⟨⟨fun h => absurd (show ("counter" : String) = "accept" from h) (by decide),
          fun h => absurd h hA⟩,
        fun h => absurd h hA, fun _ => ⟨rfl, rfl, rfl⟩,
        fun hp _ => absurd hp (by omega), fun _ => hcur, rfl, by decide, by decide⟩
    · rw [rule_based_response_pos s buyerOffer hA hZ]
      refine ⟨⟨fun h => absurd (show ("counter" : String) = "accept" from h) (by decide),
          fun h => absurd h hA⟩,
        fun h => absurd h hA, fun h2 => absurd h2 hZ, fun _ _ => ⟨rfl, ?_⟩,
        fun _ => ?_, rfl, by decide, by decide⟩
      · by_cases h8 : 8 ≤ s.round + 1 <;> by_cases h6 : 6 ≤ s.round + 1 <;>
          simp [h8, h6]
      · by_cases h8 : 8 ≤ s.round + 1 <;> by_cases h6 : 6 ≤ s.round + 1 <;>
          simp [h8, h6, le_max_left]

/-- C2 witness: the theorem evaluated on the program's initial seller state
(`min_price = 144000`, `current_price = 252000`, floor threshold `158400`)
at the claim's example offer `150000`. -/
theorem seller_rule_based_policy_spec_witness :
    (0 : Int) < 144000 ∧ (144000 : Int) ≤ 252000 ∧
    (((rule_based_response ⟨144000, 252000, 0⟩ 150000).2.rtype = "accept" ↔
       ((144000 : Int) * 11).tdiv 10 ≤ 150000) ∧
     (((144000 : Int) * 11).tdiv 10 ≤ 150000 →
       (rule_based_response ⟨144000, 252000, 0⟩ 150000).2.price = 150000) ∧
     ((150000 : Int) ≤ 0 →
       (rule_based_response ⟨144000, 252000, 0⟩ 150000).2.rtype = "counter" ∧
       (rule_based_response ⟨144000, 252000, 0⟩ 150000).2.price = 252000 ∧
       (rule_based_response ⟨144000, 252000, 0⟩ 150000).1.currentPrice = 252000) ∧
     ((0 : Int) < 150000 → (150000 : Int) < ((144000 : Int) * 11).tdiv 10 →
       (rule_based_response ⟨144000, 252000, 0⟩ 150000).2.rtype = "counter" ∧
       (rule_based_response ⟨144000, 252000, 0⟩ 150000).2.price =
         max (144000 : Int) (((150000 : Int) *
           (if 8 ≤ 0 + 1 then 105
            else if 6 ≤ 0 + 1 then 112 else 118)).tdiv 100)) ∧
     ((rule_based_response ⟨144000, 252000, 0⟩ 150000).2.rtype = "counter" →
       (144000 : Int) ≤ (rule_based_response ⟨144000, 252000, 0⟩ 150000).2.price) ∧
     (rule_based_response ⟨144000, 252000, 0⟩ 150000).2.round = 0 + 1 ∧
     (rule_based_response ⟨144000, 252000, 0⟩ 150000).2.rtype = "counter" ∧
     (rule_based_response ⟨144000, 252000, 0⟩ 170000).2 =
       { rtype := "accept", price := 170000, round := 1 }) :=
  ⟨by decide, by decide,
    seller_rule_based_policy_spec ⟨144000, 252000, 0⟩ 150000 (by decide) (by decide)⟩

/-! ### Claim C3 — buyer fallback follows the ordered rules -/

/-- C3.  The buyer fallback follows the ordered rules: accept at the
seller's price when it is within budget; otherwise reject (with price `0`)
when it exceeds `budget * 1.5`; otherwise counter at
`max(int(lastOwnOffer * 1.07), int(budget * 0.8))` with `lastOwnOffer`
defaulting to `int(basePrice * 0.65)`; hence every counter is at least
`int(budget * 0.8)`.  Scenario B: with budget `200000` a seller offer of
`320000 > 300000` is rejected. -/
theorem buyer_fallback_policy_spec (ctx : BuyerContext) (sellerPrice : Int) :
    (sellerPrice ≤ ctx.budget →
       respond_to_seller_offer ctx sellerPrice = (DealStatus.accepted, sellerPrice)) ∧
    (ctx.budget < sellerPrice → ctx.budget * 3 < sellerPrice * 2 →
       respond_to_seller_offer ctx sellerPrice = (DealStatus.rejected, 0)) ∧
    (ctx.budget < sellerPrice → sellerPrice * 2 ≤ ctx.budget * 3 →
       respond_to_seller_offer ctx sellerPrice = (DealStatus.counter,
         max (((ctx.yourOffers.getLast?.getD ((ctx.basePrice * 65).tdiv 100)) * 107).tdiv 100)
           ((ctx.budget * 8).tdiv 10))) ∧
    ((respond_to_seller_offer ctx sellerPrice).1 = DealStatus.counter →
       (ctx.budget * 8).tdiv 10 ≤ (respond_to_seller_offer ctx sellerPrice).2) ∧
    respond_to_seller_offer (initBuyerContext 200000) 320000 = (DealStatus.rejected, 0) := by
  refine ⟨?_, ?_, ?_, ?_, by decide⟩
  · intro h; simp [respond_to_seller_offer, h]
  · intro h1 h2
    simp [respond_to_seller_offer, not_le.mpr h1, h2]
  · intro h1 h2
    simp [respond_to_seller_offer, not_le.mpr h1, not_lt.mpr h2]
  · intro h
    unfold respond_to_seller_offer at h ⊢
    by_cases h1 : sellerPrice ≤ ctx.budget
    · simp [h1] at h
    · by_cases h2 : sellerPrice * 2 > ctx.budget * 3
      · simp [h1, h2] at h
      · simp [h1, h2, le_max_right]

/-- C3 witness: the theorem evaluated at the initial default buyer context
and the scenario-B seller price `320000`. -/
theorem buyer_fallback_policy_spec_witness :
    ((320000 : Int) ≤ (initBuyerContext 200000).budget →
       respond_to_seller_offer (initBuyerContext 200000) 320000 =
         (DealStatus.accepted, 320000)) ∧
    ((initBuyerContext 200000).budget < 320000 →
       (initBuyerContext 200000).budget * 3 < (320000 : Int) * 2 →
       respond_to_seller_offer (initBuyerContext 200000) 320000 =
         (DealStatus.rejected, 0)) ∧
    ((initBuyerContext 200000).budget < 320000 →
       (320000 : Int) * 2 ≤ (initBuyerContext 200000).budget * 3 →
       respond_to_seller_offer (initBuyerContext 200000) 320000 =
         (DealStatus.counter,
           max ((((initBuyerContext 200000).yourOffers.getLast?.getD
               (((initBuyerContext 200000).basePrice * 65).tdiv 100)) * 107).tdiv 100)
             (((initBuyerContext 200000).budget * 8).tdiv 10))) ∧
    ((respond_to_seller_offer (initBuyerContext 200000) 320000).1 = DealStatus.counter →
       ((initBuyerContext 200000).budget * 8).tdiv 10 ≤
         (respond_to_seller_offer (initBuyerContext 200000) 320000).2) ∧
    respond_to_seller_offer (initBuyerContext 200000) 320000 = (DealStatus.rejected, 0) :=
  buyer_fallback_policy_spec (initBuyerContext 200000) 320000

/-! ### Claim C4 — the round limit fires at round 10, not 11 -/

/-- C4 (counterexample).  The claim says the session terminates with a
synthesized `Reject` only when the round counter reaches `11`.  In the code
(`buyer_client.py`) the check is `current_round >= MAX_ROUNDS`: after a
reachable run of nine processed seller offers, the tenth offer brings the
round counter to `10 = maxRounds` and the buyer immediately sends the
synthesized reject and stops — even though `10 ≤ maxRounds`. -/
theorem buyer_round_limit_cex :
    (buyer_negotiate_offer
        (reachBuyerContext 200000 (List.replicate 9 250000)) 250000).1.round = 10 ∧
    (buyer_negotiate_offer
        (reachBuyerContext 200000 (List.replicate 9 250000)) 250000).1.round ≤ MAX_ROUNDS ∧
    (buyer_negotiate_offer
        (reachBuyerContext 200000 (List.replicate 9 250000)) 250000).2.rejectSent = true ∧
    (buyer_negotiate_offer
        (reachBuyerContext 200000 (List.replicate 9 250000)) 250000).2.continueSession = false := by
  refine ⟨by decide, by decide, by decide, by decide⟩

/-- C4 (amended).  Every incoming seller offer/counter is first handed to
the decision logic (`handle_offer` runs unconditionally), the round counter
increments by exactly one, and the buyer then terminates — sending a
synthesized `Reject` regardless of offer values — exactly when the updated
round counter has reached `maxRounds = 10` (not 11); it continues exactly
when the updated counter is still below `10`. -/
theorem buyer_round_limit_behavior (ctx : BuyerContext) (sellerPrice : Int) :
    (buyer_negotiate_offer ctx sellerPrice).2.policyProcessed = true ∧
    (buyer_negotiate_offer ctx sellerPrice).1.round = ctx.round + 1 ∧
    ((buyer_negotiate_offer ctx sellerPrice).2.continueSession = true ↔
       ctx.round + 1 < MAX_ROUNDS) ∧
    ((buyer_negotiate_offer ctx sellerPrice).2.rejectSent = true ↔
       MAX_ROUNDS ≤ ctx.round + 1) := by
  have hr : (buyer_handle_offer ctx sellerPrice).1.round = ctx.round + 1 := by
    unfold buyer_handle_offer
    dsimp only
    split <;> rfl
  unfold buyer_negotiate_offer
  by_cases h : MAX_ROUNDS ≤ (buyer_handle_offer ctx sellerPrice).1.round
  · rw [if_pos h]
    rw [hr] at h
    exact ⟨rfl, hr, ⟨fun hc => absurd (show false = true from hc) (by decide),
        fun hlt => absurd hlt (by omega)⟩,
      ⟨fun _ => h, fun _ => rfl⟩⟩
  · rw [if_neg h]
    rw [hr] at h
    exact ⟨rfl, hr, ⟨fun _ => by omega, fun _ => rfl⟩,
      ⟨fun hc => absurd (show false = true from hc) (by decide),
        fun hle => absurd hle h⟩⟩

/-! ### Claim C5 — the asking-price tracker is not advanced by the
deterministic policy -/

/-- C5 (counterexample).  The claim says the seller's "current asking
price" tracker is advanced every time the decision policy issues a
`Counter`.  On the deterministic path it never is: from the initial state
(`min 144000`, `current 252000`, `round 0`) a buyer offer of `150000`
produces a `Counter` at `177000`, yet `current_price` stays `252000`
(only the Gemini branch of `handle_buyer_message` writes `current_price`). -/
theorem asking_price_unchanged_cex :
    (rule_based_response ⟨144000, 252000, 0⟩ 150000).2.rtype = "counter" ∧
    (rule_based_response ⟨144000, 252000, 0⟩ 150000).2.price = 177000 ∧
    (rule_based_response ⟨144000, 252000, 0⟩ 150000).1.currentPrice = 252000 ∧
    (177000 : Int) ≠ 252000 := by
  refine ⟨by decide, by decide, by decide, by decide⟩

/-- C5 (amended).  When the deterministic seller policy produces a
decision, the only state change is the round counter increment: the
current-asking-price tracker is left unchanged even when a `Counter` is
issued, and the minimum price is untouched.  (The tracker is advanced only
on the external-model branch of `handle_buyer_message`, which is not the
deterministic policy.) -/
theorem rule_based_state_frame (s : SellerState) (buyerOffer : Int) :
    (rule_based_response s buyerOffer).1.currentPrice = s.currentPrice ∧
    (rule_based_response s buyerOffer).1.minPrice = s.minPrice ∧
    (rule_based_response s buyerOffer).1.round = s.round + 1 := by
  unfold rule_based_response
  by_cases h1 : buyerOffer ≥ (s.minPrice * 11).tdiv 10
  · simp [h1]
  · by_cases h2 : buyerOffer ≤ 0 <;> simp [h1, h2]

/-! ### Claim C9 — the deterministic seller never walks away -/

/-- C9.  For every seller state and every buyer offer,
`_rule_based_response` replies `accept` or `counter`, never `reject`: a
seller-originated `reject` can only come from the external-model error
handler, which is outside the deterministic policy. -/
theorem rule_based_never_rejects (s : SellerState) (buyerOffer : Int) :
    (rule_based_response s buyerOffer).2.rtype = "accept" ∨
    (rule_based_response s buyerOffer).2.rtype = "counter" := by
  unfold rule_based_response
  by_cases h1 : buyerOffer ≥ (s.minPrice * 11).tdiv 10
  · left; simp [h1]
  · by_cases h2 : buyerOffer ≤ 0
    · right; simp [h1, h2]
    · right; simp [h1, h2]

/-! ### Claim C10 — an accepting buyer is confirmed unconditionally -/

/-- C10.  When the incoming buyer record carries action `accept`,
`handle_buyer_message` confirms the deal unconditionally at the buyer's
stated price: the reply is `deal_confirmed` at exactly the record's price
for every price `p` — including `0`, negative values and prices below the
seller's `min_price`, none of which are validated — and at the default `0`
when the price field is absent.  The seller state is unchanged. -/
theorem accept_confirmed_unvalidated (s : SellerState) (p : Int) :
    handle_buyer_message s
        [(("action".data), JVal.jstr ("accept".data)), (("price".data), JVal.jnum p)] =
      (s, { rtype := "deal_confirmed", price := p, round := s.round }) ∧
    handle_buyer_message s [(("action".data), JVal.jstr ("accept".data))] =
      (s, { rtype := "deal_confirmed", price := 0, round := s.round }) := by
  constructor
  · rfl
  · rfl

/-! ### Claim C7 — defaults and discriminant normalization -/

/-- C7 (counterexample).  The claim says any discriminant starting with
`"acc"` becomes Accept for every decoded record.  For inbound buyer
records it does not: `handle_buyer_message` matches the action exactly, so
a record with action `"acc"` and price `50000` is routed to the
negotiation path and answered with a `counter` — not confirmed as a deal. -/
theorem exact_action_match_cex :
    (handle_buyer_message ⟨144000, 252000, 0⟩
        [(("action".data), JVal.jstr ("acc".data)),
         (("price".data), JVal.jnum 50000)]).2.rtype = "counter" ∧
    (handle_buyer_message ⟨144000, 252000, 0⟩
        [(("action".data), JVal.jstr ("acc".data)),
         (("price".data), JVal.jnum 50000)]).2.rtype ≠ "deal_confirmed" := by
  constructor
  · decide
  · decide

/-- Prefix tests for `"acc"` and `"rej"` cannot both hold. -/
theorem acc_rej_not_both (t : List Char) :
    ("acc".data).isPrefixOf t → ("rej".data).isPrefixOf t → False := by
  cases t with
  | nil => intro h _; simp [List.isPrefixOf] at h
  | cons c t' =>
    intro h1 h2
    simp only [show ("acc".data) = 'a' :: 'c' :: 'c' :: [] from rfl,
      show ("rej".data) = 'r' :: 'e' :: 'j' :: [] from rfl,
      List.isPrefixOf, Bool.and_eq_true, beq_iff_eq] at h1 h2
    exact absurd (h1.1 ▸ h2.1) (by decide)

/-- C7 (amended).  The documented defaults hold for both record readers —
a missing `price` is `0` and a missing `message` is empty — and the
prefix normalization (`acc*` to accept, `rej*` to reject, anything else to
counter) is applied by the sanitizer of the external-model output
(`_gemini_generate`).  Inbound buyer records are matched exactly instead:
any action other than the literal `accept`/`reject` — including ones
starting with `acc` — is routed to the deterministic negotiation policy
(see the counterexample). -/
theorem record_defaults_normalization :
    (∀ t : List Char,
      (("acc".data).isPrefixOf t → normalizeGeminiType t = "accept".data) ∧
      (("rej".data).isPrefixOf t → normalizeGeminiType t = "reject".data) ∧
      (¬ ("acc".data).isPrefixOf t → ¬ ("rej".data).isPrefixOf t →
        normalizeGeminiType t = "counter".data)) ∧
    (∀ o : List (List Char × JVal),
      (jGet o ("price".data) = none → getGeminiPrice o = 0) ∧
      (jGet o ("message".data) = none → getGeminiMessage o = []) ∧
      (jGet o ("price".data) = none → getPriceField o = 0) ∧
      (jGet o ("message".data) = none → getMessageField o = [])) ∧
    (∀ (s : SellerState) (o : List (List Char × JVal)),
      getActionField o ≠ "accept".data → getActionField o ≠ "reject".data →
      handle_buyer_message s o = rule_based_response s (getPriceField o)) := by
  refine ⟨?_, ?_, ?_⟩
  · intro t
    unfold normalizeGeminiType
    by_cases hr : t = "counter".data ∨ t = "accept".data ∨ t = "reject".data
    · rw [if_pos hr]
      rcases hr with h | h | h <;> subst h
      · exact ⟨fun hp => absurd hp (by decide), fun hp => absurd hp (by decide),
          fun _ _ => rfl⟩
      · exact ⟨fun _ => rfl, fun hp => absurd hp (by decide),
          fun ha _ => absurd (by decide) ha⟩
      · exact ⟨fun hp => absurd hp (by decide), fun _ => rfl,
          fun _ hj => absurd (by decide) hj⟩
    · rw [if_neg hr]
      by_cases ha : ("acc".data).isPrefixOf t
      · rw [if_pos ha]
        exact ⟨fun _ => rfl, fun hj => (acc_rej_not_both t ha hj).elim,
          fun hna _ => absurd ha hna⟩
      · rw [if_neg ha]
        by_cases hj : ("rej".data).isPrefixOf t
        · rw [if_pos hj]
          exact ⟨fun hp => absurd hp ha, fun _ => rfl, fun _ hnj => absurd hj hnj⟩
        · rw [if_neg hj]
          exact ⟨fun hp => absurd hp ha, fun hp => absurd hp hj, fun _ _ => rfl⟩
  · intro o
    refine ⟨fun h => ?_, fun h => ?_, fun h => ?_, fun h => ?_⟩
    · simp [getGeminiPrice, h]
    · simp [getGeminiMessage, h, pyStrip, skipJsonWs]
    · simp [getPriceField, h]
    · simp [getMessageField, h]
  · intro s o h1 h2
    unfold handle_buyer_message
    rw [if_neg h1, if_neg h2]

/-- C7 witness: the amended theorem evaluated at the concrete discriminant
`"acc"`, the empty record (missing fields) and the initial seller state. -/
theorem record_defaults_normalization_witness :
    normalizeGeminiType ("acc".data) = "accept".data ∧
    getGeminiPrice [] = 0 ∧ getGeminiMessage [] = [] ∧
    getPriceField [] = 0 ∧ getMessageField [] = [] ∧
    handle_buyer_message ⟨144000, 252000, 0⟩ [] =
      rule_based_response ⟨144000, 252000, 0⟩ (getPriceField []) :=
  ⟨(record_defaults_normalization.1 ("acc".data)).1 (by decide),
   (record_defaults_normalization.2.1 []).1 rfl,
   (record_defaults_normalization.2.1 []).2.1 rfl,
   (record_defaults_normalization.2.1 []).2.2.1 rfl,
   (record_defaults_normalization.2.1 []).2.2.2 rfl,
   record_defaults_normalization.2.2 ⟨144000, 252000, 0⟩ [] (by decide) (by decide)⟩

/-! ### Claim C6 — decoding a record embedded in noise -/

/-- A brace-free prefix does not affect where the first brace is found. -/
theorem dropToBrace_append (p x : List Char) (h : '{' ∉ p) :
    dropToBrace (p ++ x) = dropToBrace x := by
  induction p with
  | nil => rfl
  | cons c t ih =>
    simp only [List.mem_cons, not_or] at h
    simp only [List.cons_append, dropToBrace]
    rw [if_neg (fun e => h.1 e.symm)]
    exact ih h.2

/-- The balanced scan stops where it stops: appending a suffix after the
input cannot change a successful extraction. -/
theorem extractBalanced_append (x s out : List Char) :
    ∀ d acc, extractBalanced d acc x = some out →
      extractBalanced d acc (x ++ s) = some out := by
  induction x with
  | nil =>
    intro d acc h
    simp [extractBalanced] at h
  | cons c t ih =>
    intro d acc h
    rw [List.cons_append]
    rw [extractBalanced] at h ⊢
    by_cases h1 : c = '{'
    · rw [if_pos h1] at h ⊢
      exact ih _ _ h
    · rw [if_neg h1] at h ⊢
      by_cases h2 : c = '}'
      · rw [if_pos h2] at h ⊢
        by_cases h3 : d = 1
        · rw [if_pos h3] at h ⊢
          exact h
        · rw [if_neg h3] at h ⊢
          exact ih _ _ h
      · rw [if_neg h2] at h ⊢
        exact ih _ _ h

/-- C6 (amended).  Decoding a record embedded in noise yields the same
Action as decoding the bare record, provided the prefix noise contains no
opening brace (the extractor anchors on the first `'{'`; see the
counterexample for a prefix that contains one), the record is a balanced
block (the extractor returns it whole), and the noisy bytes are not
themselves one valid JSON document; the suffix noise is arbitrary.  In
particular scenario D holds: the bytes
`blah blah \x7b"kind":"counter","price":150000,"message":"ok"\x7d trailing junk`
decode to `Counter(150000, "ok")`. -/
theorem embedded_record_decode :
    (∀ p rec s : List Char, '{' ∉ p → rec.head? = some '{' →
      extract_first_json_block rec = some rec →
      jsonLoads (p ++ rec ++ s) = none →
      seller_decode_action (p ++ rec ++ s) = seller_decode_action rec) ∧
    seller_decode_action
        (("blah blah \x7b\"kind\":\"counter\",\"price\":150000,\"message\":\"ok\"\x7d trailing junk").data) =
      some (WireAction.counter 150000 ("ok".data)) := by
  constructor
  · intro p rec s hp hh hx hload
    obtain ⟨rt, hrt⟩ : ∃ rt, rec = '{' :: rt := by
      cases hc : rec with
      | nil => rw [hc] at hh; simp at hh
      | cons c t =>
        rw [hc] at hh
        simp only [List.head?] at hh
        exact ⟨t, by rw [Option.some_inj] at hh; rw [hh]⟩
    have hbal : extractBalanced 0 [] rec = some rec := by
      unfold extract_first_json_block at hx
      rw [hrt] at hx
      simp only [dropToBrace, if_pos rfl, Option.bind_some] at hx
      rw [hrt]
      exact hx
    have hxz : extract_first_json_block (p ++ (rec ++ s)) = some rec := by
      unfold extract_first_json_block
      rw [dropToBrace_append p _ hp, hrt, List.cons_append]
      simp only [dropToBrace, if_pos rfl, Option.bind_some]
      rw [← List.cons_append, ← hrt]
      exact extractBalanced_append rec s rec 0 [] hbal
    unfold seller_decode_action seller_receive
    rw [List.append_assoc] at hload ⊢
    rw [hload, hxz]
    cases hjr : jsonLoads rec with
    | none => simp [hjr, hx]
    | some o => simp [hjr]
  · decide

/-- C6 witness: the amended equality applied at scenario D's noise and
record; together with the second conjunct this decodes the noisy bytes to
`Counter(150000, "ok")`. -/
theorem embedded_record_decode_witness :
    ('{' ∉ ("blah blah ").data) ∧
    (("\x7b\"kind\":\"counter\",\"price\":150000,\"message\":\"ok\"\x7d").data).head? = some '{' ∧
    extract_first_json_block
        (("\x7b\"kind\":\"counter\",\"price\":150000,\"message\":\"ok\"\x7d").data) =
      some (("\x7b\"kind\":\"counter\",\"price\":150000,\"message\":\"ok\"\x7d").data) ∧
    jsonLoads (("blah blah ").data ++
        (("\x7b\"kind\":\"counter\",\"price\":150000,\"message\":\"ok\"\x7d").data) ++
        (" trailing junk").data) = none ∧
    seller_decode_action (("blah blah ").data ++
        (("\x7b\"kind\":\"counter\",\"price\":150000,\"message\":\"ok\"\x7d").data) ++
        (" trailing junk").data) =
      seller_decode_action
        (("\x7b\"kind\":\"counter\",\"price\":150000,\"message\":\"ok\"\x7d").data) :=
  ⟨by decide, by decide, by decide, by decide,
   embedded_record_decode.1 (("blah blah ").data)
     (("\x7b\"kind\":\"counter\",\"price\":150000,\"message\":\"ok\"\x7d").data)
     ((" trailing junk").data) (by decide) (by decide) (by decide) (by decide)⟩

/-- C6 (counterexample to the claim as stated).  The noise is not
arbitrary: a prefix containing an opening brace derails the extractor.
Prepending `"\x7b "` to the bare scenario-D record makes decoding fail
entirely, while the bare record decodes to `Counter(150000, "ok")`. -/
theorem brace_noise_decode_cex :
    seller_decode_action
        (("\x7b \x7b\"kind\":\"counter\",\"price\":150000,\"message\":\"ok\"\x7d").data) = none ∧
    seller_decode_action
        (("\x7b\"kind\":\"counter\",\"price\":150000,\"message\":\"ok\"\x7d").data) =
      some (WireAction.counter 150000 ("ok".data)) := by
  constructor
  · decide
  · decide

/-! ### Claim C8 — round-trip of the codec: number printing/parsing -/

/-- A decimal digit character is a digit. -/
theorem decDigitChar_isDigit (d : Nat) (h : d < 10) :
    (decDigitChar d).isDigit = true := by
  interval_cases d <;> decide

/-- Code of a decimal digit character. -/
theorem decDigitChar_toNat (d : Nat) (h : d < 10) :
    (decDigitChar d).toNat = 48 + d := by
  interval_cases d <;> decide

/-- `natDigits` output is nonempty and starts with a digit (in particular
not whitespace, not a quote, not a minus sign). -/
theorem natDigits_head (n : Nat) :
    ∃ c t, natDigits n = c :: t ∧ c.isDigit = true ∧
      isJsonWs c = false ∧ ¬ c = '"' ∧ ¬ c = '-' := by
  induction n using Nat.strong_induction_on with
  | _ n ih =>
    by_cases h : n < 10
    · refine ⟨decDigitChar n, [], by rw [natDigits, dif_pos h], ?_, ?_, ?_, ?_⟩ <;>
        interval_cases n <;> decide
    · obtain ⟨c, t, hct, h1, h2, h3, h4⟩ :=
        ih (n / 10) (Nat.div_lt_self (by omega) (by omega))
      exact ⟨c, t ++ [decDigitChar (n % 10)],
        by rw [natDigits, dif_neg h, hct, List.cons_append], h1, h2, h3, h4⟩

/-- `parseNatAux` consumes a printed number whole, shifting the
accumulator by the number of digits. -/
theorem parseNatAux_natDigits (n : Nat) : ∀ (acc : Nat) (rest : List Char),
    parseNatAux acc (natDigits n ++ rest) =
      parseNatAux (acc * 10 ^ (natDigits n).length + n) rest := by
  induction n using Nat.strong_induction_on with
  | _ n ih =>
    intro acc rest
    by_cases h : n < 10
    · rw [natDigits, dif_pos h]
      simp only [List.cons_append, List.nil_append, List.length_cons,
        List.length_nil, parseNatAux]
      rw [if_pos (decDigitChar_isDigit n h), decDigitChar_toNat n h]
      have h1 : 48 + n - 48 = n := by omega
      rw [h1, pow_one]
      rfl
    · rw [natDigits, dif_neg h]
      rw [List.append_assoc, List.singleton_append]
      rw [ih (n / 10) (Nat.div_lt_self (by omega) (by omega)) acc
        (decDigitChar (n % 10) :: rest)]
      have hm : n % 10 < 10 := Nat.mod_lt _ (by omega)
      simp only [parseNatAux]
      rw [if_pos (decDigitChar_isDigit _ hm), decDigitChar_toNat _ hm]
      have hlen : (natDigits (n / 10) ++ [decDigitChar (n % 10)]).length =
          (natDigits (n / 10)).length + 1 := by
        simp
      rw [hlen, pow_succ]
      congr 1
      have h1 : 48 + n % 10 - 48 = n % 10 := by omega
      rw [h1, Nat.add_mul, Nat.mul_assoc]
      have h2 : n / 10 * 10 + n % 10 = n := by omega
      omega

/-- `parseNatAux` stops at a non-digit. -/
theorem parseNatAux_stop (a : Nat) (rest : List Char)
    (h : headDigit rest = false) : parseNatAux a rest = (a, rest) := by
  cases rest with
  | nil => rfl
  | cons c t =>
    simp only [headDigit] at h
    simp [parseNatAux, h]

/-- `parseNum` inverts `natDigits` when the remainder does not continue
with a digit. -/
theorem parseNum_natDigits (n : Nat) (rest : List Char)
    (h : headDigit rest = false) :
    parseNum (natDigits n ++ rest) = some ((n : Int), rest) := by
  obtain ⟨c, t, hct, hd, _, _, hm⟩ := natDigits_head n
  rw [hct, List.cons_append]
  unfold parseNum
  dsimp only
  rw [if_neg hm, if_pos hd]
  have hchain : parseNatAux 0 (c :: (t ++ rest)) = (n, rest) := by
    rw [← List.cons_append, ← hct, parseNatAux_natDigits n 0 rest]
    simp only [Nat.zero_mul, Nat.zero_add]
    exact parseNatAux_stop n rest h
  rw [hchain]

/-! ### Claim C8 — round-trip of the codec: string escaping -/

/-- Step: escaped quote. -/
theorem parseStrAux_esc_quote (x : List Char) :
    parseStrAux ('\\' :: '"' :: x) =
      (parseStrAux x).map (fun p => ('"' :: p.1, p.2)) := by
  rw [parseStrAux.eq_def]; rfl

/-- Step: escaped backslash. -/
theorem parseStrAux_esc_backslash (x : List Char) :
    parseStrAux ('\\' :: '\\' :: x) =
      (parseStrAux x).map (fun p => ('\\' :: p.1, p.2)) := by
  rw [parseStrAux.eq_def]; rfl

/-- Step: escaped newline. -/
theorem parseStrAux_esc_n (x : List Char) :
    parseStrAux ('\\' :: 'n' :: x) =
      (parseStrAux x).map (fun p => ('\n' :: p.1, p.2)) := by
  rw [parseStrAux.eq_def]; rfl

/-- Step: escaped tab. -/
theorem parseStrAux_esc_t (x : List Char) :
    parseStrAux ('\\' :: 't' :: x) =
      (parseStrAux x).map (fun p => ('\t' :: p.1, p.2)) := by
  rw [parseStrAux.eq_def]; rfl

/-- Step: escaped carriage return. -/
theorem parseStrAux_esc_r (x : List Char) :
    parseStrAux ('\\' :: 'r' :: x) =
      (parseStrAux x).map (fun p => ('\r' :: p.1, p.2)) := by
  rw [parseStrAux.eq_def]; rfl

/-- Step: escaped backspace. -/
theorem parseStrAux_esc_b (x : List Char) :
    parseStrAux ('\\' :: 'b' :: x) =
      (parseStrAux x).map (fun p => (Char.ofNat 8 :: p.1, p.2)) := by
  rw [parseStrAux.eq_def]; rfl

/-- Step: escaped form feed. -/
theorem parseStrAux_esc_f (x : List Char) :
    parseStrAux ('\\' :: 'f' :: x) =
      (parseStrAux x).map (fun p => (Char.ofNat 12 :: p.1, p.2)) := by
  rw [parseStrAux.eq_def]; rfl

/-- Step: a literal (unescaped) character. -/
theorem parseStrAux_lit (c : Char) (x : List Char) (h1 : ¬ c = '"')
    (h2 : ¬ c = '\\') (h3 : ¬ c.toNat < 32) :
    parseStrAux (c :: x) = (parseStrAux x).map (fun p => (c :: p.1, p.2)) := by
  rw [parseStrAux.eq_def]
  dsimp only
  rw [if_neg h1, if_neg h2, if_neg h3]

/-- Step: a `\u`-escape with four hex digits. -/
theorem parseStrAux_esc_u (h1 h2 h3 h4 : Char) (x : List Char)
    (a b c3 d : Nat) (ha : hexVal h1 = some a) (hb : hexVal h2 = some b)
    (hc : hexVal h3 = some c3) (hd : hexVal h4 = some d) :
    parseStrAux ('\\' :: 'u' :: h1 :: h2 :: h3 :: h4 :: x) =
      (parseStrAux x).map
        (fun p => (Char.ofNat (a * 4096 + b * 256 + c3 * 16 + d) :: p.1, p.2)) := by
  rw [parseStrAux.eq_def]
  dsimp only
  rw [if_neg (by decide : ¬ ('\\' : Char) = '"'), if_pos (rfl : ('\\' : Char) = '\\')]
  rw [if_neg (by decide : ¬ ('u' : Char) = '"'),
    if_neg (by decide : ¬ ('u' : Char) = '\\'),
    if_neg (by decide : ¬ ('u' : Char) = '/'),
    if_neg (by decide : ¬ ('u' : Char) = 'n'),
    if_neg (by decide : ¬ ('u' : Char) = 't'),
    if_neg (by decide : ¬ ('u' : Char) = 'r'),
    if_neg (by decide : ¬ ('u' : Char) = 'b'),
    if_neg (by decide : ¬ ('u' : Char) = 'f'),
    if_pos (rfl : ('u' : Char) = 'u')]
  rw [ha, hb, hc, hd]

/-- `hexVal` inverts the lowercase hex digit printer. -/
theorem hexVal_hexChar (d : Nat) (h : d < 16) :
    hexVal (escapeChar.hexChar d) = some d := by
  interval_cases d <;> decide

/-- The string parser inverts `json.dumps` escaping: parsing the escaped
body followed by a closing quote returns the original characters and the
rest of the input. -/
theorem parseStrAux_escapeStr (s : List Char) : ∀ rest : List Char,
    parseStrAux (escapeStr s ++ ('"' :: rest)) = some (s, rest) := by
  induction s with
  | nil =>
    intro rest
    show parseStrAux ('"' :: rest) = some ([], rest)
    rw [parseStrAux.eq_def]
    rfl
  | cons c t ih =>
    intro rest
    show parseStrAux ((escapeChar c ++ escapeStr t) ++ ('"' :: rest)) = _
    rw [List.append_assoc]
    unfold escapeChar
    by_cases e1 : c = '"'
    · rw [if_pos e1, List.cons_append, List.singleton_append,
        parseStrAux_esc_quote, ih rest, e1]
      rfl
    · rw [if_neg e1]
      by_cases e2 : c = '\\'
      · rw [if_pos e2, List.cons_append, List.singleton_append,
          parseStrAux_esc_backslash, ih rest, e2]
        rfl
      · rw [if_neg e2]
        by_cases e3 : c = '\n'
        · rw [if_pos e3, List.cons_append, List.singleton_append,
            parseStrAux_esc_n, ih rest, e3]
          rfl
        · rw [if_neg e3]
          by_cases e4 : c = '\t'
          · rw [if_pos e4, List.cons_append, List.singleton_append,
              parseStrAux_esc_t, ih rest, e4]
            rfl
          · rw [if_neg e4]
            by_cases e5 : c = '\r'
            · rw [if_pos e5, List.cons_append, List.singleton_append,
                parseStrAux_esc_r, ih rest, e5]
              rfl
            · rw [if_neg e5]
              by_cases e6 : c.toNat = 8
              · rw [if_pos e6, List.cons_append, List.singleton_append,
                  parseStrAux_esc_b, ih rest]
                have : Char.ofNat 8 = c := by rw [← e6, Char.ofNat_toNat]
                rw [this]
                rfl
              · rw [if_neg e6]
                by_cases e7 : c.toNat = 12
                · rw [if_pos e7, List.cons_append, List.singleton_append,
                    parseStrAux_esc_f, ih rest]
                  have : Char.ofNat 12 = c := by rw [← e7, Char.ofNat_toNat]
                  rw [this]
                  rfl
                · rw [if_neg e7]
                  by_cases e8 : c.toNat < 32
                  · rw [if_pos e8]
                    simp only [List.cons_append, List.nil_append]
                    rw [parseStrAux_esc_u '0' '0'
                      (escapeChar.hexChar (c.toNat / 16))
                      (escapeChar.hexChar (c.toNat % 16))
                      _ 0 0 (c.toNat / 16) (c.toNat % 16)
                      (by decide) (by decide)
                      (hexVal_hexChar _ (by omega))
                      (hexVal_hexChar _ (Nat.mod_lt _ (by omega)))]
                    rw [ih rest]
                    have hv : 0 * 4096 + 0 * 256 + c.toNat / 16 * 16 + c.toNat % 16
                        = c.toNat := by omega
                    rw [hv, Char.ofNat_toNat]
                    rfl
                  · rw [if_neg e8, List.singleton_append,
                      parseStrAux_lit c _ e1 e2 e8, ih rest]
                    rfl

/-! ### Claim C8 — round-trip of the codec: record parsing -/

/-- `skipJsonWs` keeps a non-whitespace head. -/
theorem skipJsonWs_cons_of (c : Char) (x : List Char) (h : isJsonWs c = false) :
    skipJsonWs (c :: x) = c :: x := by
  rw [skipJsonWs.eq_def]
  dsimp only
  rw [if_neg (by simp [h])]

/-- `skipJsonWs` drops a leading space. -/
theorem skipJsonWs_space (x : List Char) : skipJsonWs (' ' :: x) = skipJsonWs x := by
  rw [skipJsonWs.eq_def]
  rfl

/-- Key parse: `type`. -/
theorem parseStrAux_key_type (x : List Char) :
    parseStrAux ('t' :: 'y' :: 'p' :: 'e' :: '"' :: x) = some (("type".data), x) := by
  have h := parseStrAux_escapeStr ("type".data) x
  rw [show escapeStr ("type".data) ++ ('"' :: x) =
    't' :: 'y' :: 'p' :: 'e' :: '"' :: x from rfl] at h
  exact h

/-- Key parse: `price`. -/
theorem parseStrAux_key_price (x : List Char) :
    parseStrAux ('p' :: 'r' :: 'i' :: 'c' :: 'e' :: '"' :: x) =
      some (("price".data), x) := by
  have h := parseStrAux_escapeStr ("price".data) x
  rw [show escapeStr ("price".data) ++ ('"' :: x) =
    'p' :: 'r' :: 'i' :: 'c' :: 'e' :: '"' :: x from rfl] at h
  exact h

/-- Key parse: `message`. -/
theorem parseStrAux_key_message (x : List Char) :
    parseStrAux ('m' :: 'e' :: 's' :: 's' :: 'a' :: 'g' :: 'e' :: '"' :: x) =
      some (("message".data), x) := by
  have h := parseStrAux_escapeStr ("message".data) x
  rw [show escapeStr ("message".data) ++ ('"' :: x) =
    'm' :: 'e' :: 's' :: 's' :: 'a' :: 'g' :: 'e' :: '"' :: x from rfl] at h
  exact h

/-- Key parse: `round`. -/
theorem parseStrAux_key_round (x : List Char) :
    parseStrAux ('r' :: 'o' :: 'u' :: 'n' :: 'd' :: '"' :: x) =
      some (("round".data), x) := by
  have h := parseStrAux_escapeStr ("round".data) x
  rw [show escapeStr ("round".data) ++ ('"' :: x) =
    'r' :: 'o' :: 'u' :: 'n' :: 'd' :: '"' :: x from rfl] at h
  exact h

/-- A string value parses to its unescaped content. -/
theorem parseVal_str (s x : List Char) :
    parseVal ('"' :: (escapeStr s ++ ('"' :: x))) = some (JVal.jstr s, x) := by
  unfold parseVal
  rw [skipJsonWs_cons_of '"' _ (by decide)]
  dsimp only
  rw [if_pos rfl, parseStrAux_escapeStr]
  rfl

/-- `parseVal` skips a leading space. -/
theorem parseVal_space (x : List Char) : parseVal (' ' :: x) = parseVal x := by
  unfold parseVal
  rw [skipJsonWs_space]

/-- A printed number parses to its value. -/
theorem parseVal_num (n : Nat) (x : List Char) (h : headDigit x = false) :
    parseVal (natDigits n ++ x) = some (JVal.jnum (n : Int), x) := by
  obtain ⟨c, t, hct, hd, hw, hq, hm⟩ := natDigits_head n
  unfold parseVal
  rw [hct, List.cons_append, skipJsonWs_cons_of c _ hw]
  dsimp only
  rw [if_neg hq, if_pos (Or.inr hd)]
  rw [← List.cons_append, ← hct, parseNum_natDigits n x h]
  rfl

/-- One non-final object member (followed by a comma). -/
theorem parseMembersF_mid (f : Nat) (kcs vrest r4 r5 : List Char)
    (k : List Char) (v : JVal) (out : List (List Char × JVal))
    (hk : parseStrAux kcs = some (k, ':' :: ' ' :: vrest))
    (hv : parseVal vrest = some (v, ',' :: r4))
    (hrec : parseMembersF f r4 = some (out, r5)) :
    parseMembersF (f + 1) ('"' :: kcs) = some ((k, v) :: out, r5) := by
  rw [parseMembersF.eq_def]
  dsimp only
  rw [skipJsonWs_cons_of '"' _ (by decide)]
  dsimp only
  rw [if_pos rfl, hk]
  dsimp only
  rw [skipJsonWs_cons_of ':' _ (by decide)]
  dsimp only
  rw [if_pos rfl, parseVal_space, hv]
  dsimp only
  rw [skipJsonWs_cons_of ',' _ (by decide)]
  dsimp only
  rw [if_pos rfl, hrec]

/-- The final object member (followed by the closing brace). -/
theorem parseMembersF_last (f : Nat) (kcs vrest r4 : List Char)
    (k : List Char) (v : JVal)
    (hk : parseStrAux kcs = some (k, ':' :: ' ' :: vrest))
    (hv : parseVal vrest = some (v, '}' :: r4)) :
    parseMembersF (f + 1) ('"' :: kcs) = some ([(k, v)], r4) := by
  rw [parseMembersF.eq_def]
  dsimp only
  rw [skipJsonWs_cons_of '"' _ (by decide)]
  dsimp only
  rw [if_pos rfl, hk]
  dsimp only
  rw [skipJsonWs_cons_of ':' _ (by decide)]
  dsimp only
  rw [if_pos rfl, parseVal_space, hv]
  dsimp only
  rw [skipJsonWs_cons_of '}' _ (by decide)]
  dsimp only
  rw [if_neg (by decide : ¬ ('}' : Char) = ','), if_pos rfl]

/-- A leading space before a member is skipped. -/
theorem parseMembersF_space (f : Nat) (x : List Char) :
    parseMembersF (f + 1) (' ' :: x) = parseMembersF (f + 1) x := by
  rw [parseMembersF.eq_def]
  conv_rhs => rw [parseMembersF.eq_def]
  dsimp only
  rw [skipJsonWs_space]

/-- `parseObj` recovers the four members of an encoded record, in order,
with nothing left over. -/
theorem parseObj_encodeRecord (typ : List Char) (p : Nat) (m : List Char)
    (r : Nat) :
    parseObj (encodeRecord typ p m r) = some ([(("type".data), JVal.jstr typ), (("price".data), JVal.jnum (p : Int)),
      (("message".data), JVal.jstr m), (("round".data), JVal.jnum (r : Int))], []) := by
  have h4 : ∀ f : Nat, parseMembersF (f + 1) ('"' :: 'r' :: 'o' :: 'u' :: 'n' :: 'd' :: '"' :: ':' :: ' ' :: (natDigits r ++ ('}' :: []))) =
      some ([(("round".data), JVal.jnum (r : Int))], []) := by
    intro f
    exact parseMembersF_last f _ _ _ _ _ (parseStrAux_key_round _)
      (parseVal_num r ('}' :: []) rfl)
  have h3 : ∀ f : Nat, parseMembersF (f + 2) ('"' :: 'm' :: 'e' :: 's' :: 's' :: 'a' :: 'g' :: 'e' :: '"' :: ':' :: ' ' :: '"' :: (escapeStr m ++ ('"' :: ',' :: ' ' :: ('"' :: 'r' :: 'o' :: 'u' :: 'n' :: 'd' :: '"' :: ':' :: ' ' :: (natDigits r ++ ('}' :: [])))))) =
      some ([(("message".data), JVal.jstr m),
             (("round".data), JVal.jnum (r : Int))], []) := by
    intro f
    have hrec : parseMembersF (f + 1) (' ' :: ('"' :: 'r' :: 'o' :: 'u' :: 'n' :: 'd' :: '"' :: ':' :: ' ' :: (natDigits r ++ ('}' :: [])))) =
        some ([(("round".data), JVal.jnum (r : Int))], []) := by
      have hsp : parseMembersF (f + 1) (' ' :: ('"' :: 'r' :: 'o' :: 'u' :: 'n' :: 'd' :: '"' :: ':' :: ' ' :: (natDigits r ++ ('}' :: [])))) =
          parseMembersF (f + 1) ('"' :: 'r' :: 'o' :: 'u' :: 'n' :: 'd' :: '"' :: ':' :: ' ' :: (natDigits r ++ ('}' :: []))) := parseMembersF_space f _
      rw [hsp]
      exact h4 f
    exact parseMembersF_mid (f + 1) _ _ _ _ _ _ _ (parseStrAux_key_message _)
      (parseVal_str m _) hrec
  have h2 : ∀ f : Nat, parseMembersF (f + 3) ('"' :: 'p' :: 'r' :: 'i' :: 'c' :: 'e' :: '"' :: ':' :: ' ' :: (natDigits p ++ (',' :: ' ' :: ('"' :: 'm' :: 'e' :: 's' :: 's' :: 'a' :: 'g' :: 'e' :: '"' :: ':' :: ' ' :: '"' :: (escapeStr m ++ ('"' :: ',' :: ' ' :: ('"' :: 'r' :: 'o' :: 'u' :: 'n' :: 'd' :: '"' :: ':' :: ' ' :: (natDigits r ++ ('}' :: []))))))))) =
      some ([(("price".data), JVal.jnum (p : Int)),
             (("message".data), JVal.jstr m),
             (("round".data), JVal.jnum (r : Int))], []) := by
    intro f
    have hrec : parseMembersF (f + 2) (' ' :: ('"' :: 'm' :: 'e' :: 's' :: 's' :: 'a' :: 'g' :: 'e' :: '"' :: ':' :: ' ' :: '"' :: (escapeStr m ++ ('"' :: ',' :: ' ' :: ('"' :: 'r' :: 'o' :: 'u' :: 'n' :: 'd' :: '"' :: ':' :: ' ' :: (natDigits r ++ ('}' :: []))))))) =
        some ([(("message".data), JVal.jstr m),
               (("round".data), JVal.jnum (r : Int))], []) := by
      have hsp : parseMembersF (f + 2) (' ' :: ('"' :: 'm' :: 'e' :: 's' :: 's' :: 'a' :: 'g' :: 'e' :: '"' :: ':' :: ' ' :: '"' :: (escapeStr m ++ ('"' :: ',' :: ' ' :: ('"' :: 'r' :: 'o' :: 'u' :: 'n' :: 'd' :: '"' :: ':' :: ' ' :: (natDigits r ++ ('}' :: []))))))) =
          parseMembersF (f + 2) ('"' :: 'm' :: 'e' :: 's' :: 's' :: 'a' :: 'g' :: 'e' :: '"' :: ':' :: ' ' :: '"' :: (escapeStr m ++ ('"' :: ',' :: ' ' :: ('"' :: 'r' :: 'o' :: 'u' :: 'n' :: 'd' :: '"' :: ':' :: ' ' :: (natDigits r ++ ('}' :: [])))))) := parseMembersF_space (f + 1) _
      rw [hsp]
      exact h3 f
    exact parseMembersF_mid (f + 2) _ _ _ _ _ _ _ (parseStrAux_key_price _)
      (parseVal_num p (',' :: ' ' :: ('"' :: 'm' :: 'e' :: 's' :: 's' :: 'a' :: 'g' :: 'e' :: '"' :: ':' :: ' ' :: '"' :: (escapeStr m ++ ('"' :: ',' :: ' ' :: ('"' :: 'r' :: 'o' :: 'u' :: 'n' :: 'd' :: '"' :: ':' :: ' ' :: (natDigits r ++ ('}' :: []))))))) rfl) hrec
  have h1 : ∀ f : Nat, parseMembersF (f + 4) ('"' :: 't' :: 'y' :: 'p' :: 'e' :: '"' :: ':' :: ' ' :: '"' :: (escapeStr typ ++ ('"' :: ',' :: ' ' :: ('"' :: 'p' :: 'r' :: 'i' :: 'c' :: 'e' :: '"' :: ':' :: ' ' :: (natDigits p ++ (',' :: ' ' :: ('"' :: 'm' :: 'e' :: 's' :: 's' :: 'a' :: 'g' :: 'e' :: '"' :: ':' :: ' ' :: '"' :: (escapeStr m ++ ('"' :: ',' :: ' ' :: ('"' :: 'r' :: 'o' :: 'u' :: 'n' :: 'd' :: '"' :: ':' :: ' ' :: (natDigits r ++ ('}' :: [])))))))))))) =
      some ([(("type".data), JVal.jstr typ), (("price".data), JVal.jnum (p : Int)),
      (("message".data), JVal.jstr m), (("round".data), JVal.jnum (r : Int))], []) := by
    intro f
    have hrec : parseMembersF (f + 3) (' ' :: ('"' :: 'p' :: 'r' :: 'i' :: 'c' :: 'e' :: '"' :: ':' :: ' ' :: (natDigits p ++ (',' :: ' ' :: ('"' :: 'm' :: 'e' :: 's' :: 's' :: 'a' :: 'g' :: 'e' :: '"' :: ':' :: ' ' :: '"' :: (escapeStr m ++ ('"' :: ',' :: ' ' :: ('"' :: 'r' :: 'o' :: 'u' :: 'n' :: 'd' :: '"' :: ':' :: ' ' :: (natDigits r ++ ('}' :: [])))))))))) =
        some ([(("price".data), JVal.jnum (p : Int)),
               (("message".data), JVal.jstr m),
               (("round".data), JVal.jnum (r : Int))], []) := by
      have hsp : parseMembersF (f + 3) (' ' :: ('"' :: 'p' :: 'r' :: 'i' :: 'c' :: 'e' :: '"' :: ':' :: ' ' :: (natDigits p ++ (',' :: ' ' :: ('"' :: 'm' :: 'e' :: 's' :: 's' :: 'a' :: 'g' :: 'e' :: '"' :: ':' :: ' ' :: '"' :: (escapeStr m ++ ('"' :: ',' :: ' ' :: ('"' :: 'r' :: 'o' :: 'u' :: 'n' :: 'd' :: '"' :: ':' :: ' ' :: (natDigits r ++ ('}' :: [])))))))))) =
          parseMembersF (f + 3) ('"' :: 'p' :: 'r' :: 'i' :: 'c' :: 'e' :: '"' :: ':' :: ' ' :: (natDigits p ++ (',' :: ' ' :: ('"' :: 'm' :: 'e' :: 's' :: 's' :: 'a' :: 'g' :: 'e' :: '"' :: ':' :: ' ' :: '"' :: (escapeStr m ++ ('"' :: ',' :: ' ' :: ('"' :: 'r' :: 'o' :: 'u' :: 'n' :: 'd' :: '"' :: ':' :: ' ' :: (natDigits r ++ ('}' :: []))))))))) := parseMembersF_space (f + 2) _
      rw [hsp]
      exact h2 f
    exact parseMembersF_mid (f + 3) _ _ _ _ _ _ _ (parseStrAux_key_type _)
      (parseVal_str typ _) hrec
  have e : encodeRecord typ p m r = '{' :: ('"' :: 't' :: 'y' :: 'p' :: 'e' :: '"' :: ':' :: ' ' :: '"' :: (escapeStr typ ++ ('"' :: ',' :: ' ' :: ('"' :: 'p' :: 'r' :: 'i' :: 'c' :: 'e' :: '"' :: ':' :: ' ' :: (natDigits p ++ (',' :: ' ' :: ('"' :: 'm' :: 'e' :: 's' :: 's' :: 'a' :: 'g' :: 'e' :: '"' :: ':' :: ' ' :: '"' :: (escapeStr m ++ ('"' :: ',' :: ' ' :: ('"' :: 'r' :: 'o' :: 'u' :: 'n' :: 'd' :: '"' :: ':' :: ' ' :: (natDigits r ++ ('}' :: [])))))))))))) := by
    unfold encodeRecord
    simp only [List.cons_append, List.nil_append, List.append_assoc]
  unfold parseObj
  rw [e]
  rw [skipJsonWs_cons_of '{' _ (by decide)]
  dsimp only
  rw [if_pos rfl]
  rw [skipJsonWs_cons_of '"' _ (by decide)]
  dsimp only
  rw [if_neg (by decide : ¬ ('"' : Char) = '}')]
  exact h1 (('{' :: ('"' :: 't' :: 'y' :: 'p' :: 'e' :: '"' :: ':' :: ' ' :: '"' :: (escapeStr typ ++ ('"' :: ',' :: ' ' :: ('"' :: 'p' :: 'r' :: 'i' :: 'c' :: 'e' :: '"' :: ':' :: ' ' :: (natDigits p ++ (',' :: ' ' :: ('"' :: 'm' :: 'e' :: 's' :: 's' :: 'a' :: 'g' :: 'e' :: '"' :: ':' :: ' ' :: '"' :: (escapeStr m ++ ('"' :: ',' :: ' ' :: ('"' :: 'r' :: 'o' :: 'u' :: 'n' :: 'd' :: '"' :: ':' :: ' ' :: (natDigits r ++ ('}' :: []))))))))))))).length)

/-- `json.loads` of an encoded record yields its four fields. -/
theorem jsonLoads_encodeRecord (typ : List Char) (p : Nat) (m : List Char)
    (r : Nat) :
    jsonLoads (encodeRecord typ p m r) = some ([(("type".data), JVal.jstr typ), (("price".data), JVal.jnum (p : Int)),
      (("message".data), JVal.jstr m), (("round".data), JVal.jnum (r : Int))]) := by
  unfold jsonLoads
  rw [parseObj_encodeRecord]
  rfl

/-- C8.  The codec round-trip law: for every constructible Action `a` and
advisory round number, decoding the bytes the seller's encoder produces
for `a` (`json.dumps` of the typed record, `ensure_ascii=False`) through
the buyer's decoder (`json.loads` plus the `type` dispatch of `negotiate`)
yields `a` again — prices, arbitrary message text (including characters
that need JSON escaping) and all four discriminants included. -/
theorem decode_encode_roundtrip (a : WireAction) (r : Nat) :
    buyer_decode (encodeAction a r) = some a := by
  cases a with
  | offer p m =>
    show buyer_decode (encodeRecord ("offer".data) p m r) = _
    unfold buyer_decode
    rw [jsonLoads_encodeRecord]
    rfl
  | counter p m =>
    show buyer_decode (encodeRecord ("counter".data) p m r) = _
    unfold buyer_decode
    rw [jsonLoads_encodeRecord]
    rfl
  | accept p m =>
    show buyer_decode (encodeRecord ("accept".data) p m r) = _
    unfold buyer_decode
    rw [jsonLoads_encodeRecord]
    rfl
  | reject m =>
    show buyer_decode (encodeRecord ("reject".data) 0 m r) = _
    unfold buyer_decode
    rw [jsonLoads_encodeRecord]
    rfl
